import Mathlib

/-!
Verification of the tBTC redemption client against its specification.

The development shallowly embeds the TypeScript sources:
  - `src/typescript/src/redemption.ts` (transaction builder and request fetcher)
  - `src/unnamed/part_002` (the `EthereumBridge` handle: key derivation,
    retry-wrapped mutating calls, active-wallet lookup)

Bytes are modelled as `List Nat` with each entry in `[0, 256)` where the code
guarantees it; hex-string encoding and decoding performed by the TypeScript
code round-trips and is elided, so functions operate directly on byte lists.
The ledger hash (keccak256) is treated as an abstract function parameter
`keccak : Bytes -> Bytes`; the theorems quantify over it, so they hold for the
real keccak256 in particular.
-/

namespace Tbtc

abbrev Bytes := List Nat

/-- Big-endian fixed-width encoding of a natural number, `w` bytes wide.
Mirrors the byte layout ethers.js solidity-packing uses for `uintN` values. -/
def beBytes (w : Nat) (n : Nat) : Bytes :=
  (List.range w).map (fun i => n / 256 ^ (w - 1 - i) % 256)

/-- The solidity types appearing in the `solidityKeccak256` calls of the
`EthereumBridge` handle. -/
inductive SolType
  | bytes
  | bytes20
  | bytes32
  | uint32
  | uint64
deriving DecidableEq, Repr

/-- A value passed to `solidityKeccak256`: either a byte string (given to the
real code as a 0x-prefixed hex string) or a number. -/
inductive SolValue
  | bV (b : Bytes)
  | nV (n : Nat)
deriving DecidableEq, Repr

/-- Packing of a single typed value, as ethers.js `solidityPack` performs it:
fixed-size byte types check the length, `uintN` values must fit the width and
are laid out big-endian, dynamic `bytes` pass through unchanged. `none`
models the exception ethers.js throws on a size mismatch. -/
def solidityPackOne : SolType → SolValue → Option Bytes
  | SolType.bytes, SolValue.bV b => some b
  | SolType.bytes20, SolValue.bV b => if b.length = 20 then some b else none
  | SolType.bytes32, SolValue.bV b => if b.length = 32 then some b else none
  | SolType.uint32, SolValue.nV n => if n < 2 ^ 32 then some (beBytes 4 n) else none
  | SolType.uint64, SolValue.nV n => if n < 2 ^ 64 then some (beBytes 8 n) else none
  | _, _ => none

/-- Packing of an argument list: the concatenation of the packed values. -/
def solidityPack : List (SolType × SolValue) → Option Bytes
  | [] => some []
  | (t, v) :: rest =>
    match solidityPackOne t v, solidityPack rest with
    | some b, some bs => some (b ++ bs)
    | _, _ => none

/-- ethers.js `utils.solidityKeccak256`: keccak256 of the packed arguments,
with the hash function abstracted as a parameter. -/
def solidityKeccak256 (keccak : Bytes → Bytes) (args : List (SolType × SolValue)) :
    Option Bytes :=
  (solidityPack args).map keccak

/-- `EthereumBridge.buildRedemptionKey` (src/unnamed/part_002, lines 183-203):
decode the redeemer output script from hex, prepend a single byte holding its
length (Node `Buffer.from([n])` stores `n` modulo 256), hash the prefixed
buffer, then hash {that 32-byte digest, the 20-byte wallet public key hash}. -/
def buildRedemptionKey (keccak : Bytes → Bytes)
    (walletPublicKeyHash redeemerOutputScript : Bytes) : Option Bytes :=
  let rawRedeemerOutputScript := redeemerOutputScript
  let prefixedRawRedeemerOutputScript :=
    (rawRedeemerOutputScript.length % 256) :: rawRedeemerOutputScript
  match solidityKeccak256 keccak
      [(SolType.bytes, SolValue.bV prefixedRawRedeemerOutputScript)] with
  | none => none
  | some scriptDigest =>
    solidityKeccak256 keccak
      [(SolType.bytes32, SolValue.bV scriptDigest),
       (SolType.bytes20, SolValue.bV walletPublicKeyHash)]

/-- The two-stage redemption-key rule as the specification words it:
hash the length-prefixed script, then hash {digest, wallet public key hash}. -/
def redemptionKeyRule (keccak : Bytes → Bytes)
    (walletPublicKeyHash redeemerOutputScript : Bytes) : Bytes :=
  keccak (keccak (redeemerOutputScript.length :: redeemerOutputScript)
    ++ walletPublicKeyHash)

/-- `EthereumBridge.buildDepositKey` (src/unnamed/part_002, lines 448-460):
keccak256 of {byte-order-reversed deposit transaction hash as bytes32,
output index as uint32}. -/
def buildDepositKey (keccak : Bytes → Bytes)
    (depositTxHash : Bytes) (depositOutputIndex : Nat) : Option Bytes :=
  solidityKeccak256 keccak
    [(SolType.bytes32, SolValue.bV depositTxHash.reverse),
     (SolType.uint32, SolValue.nV depositOutputIndex)]

/-- The deposit-key rule as the specification words it. -/
def depositKeyRule (keccak : Bytes → Bytes)
    (depositTxHash : Bytes) (depositOutputIndex : Nat) : Bytes :=
  keccak (depositTxHash.reverse ++ beBytes 4 depositOutputIndex)

/-- An unspent Bitcoin transaction output as the client sees it. -/
structure UnspentTransactionOutput where
  transactionHash : Bytes
  outputIndex : Nat
  value : Nat
deriving DecidableEq, Repr

/-- A redemption request (src/typescript/src/redemption.ts, lines 19-56).
The amounts are ethers.js BigNumber values, hence arbitrary-precision
integers. The redeemer identifier is irrelevant to the builder and modelled
as a number. -/
structure RedemptionRequest where
  redeemer : Nat
  redeemerOutputScript : Bytes
  requestedAmount : Int
  treasuryFee : Int
  txMaxFee : Int
  requestedAt : Nat
deriving DecidableEq, Repr

/-- `EthereumBridge.buildUtxoHash` (src/unnamed/part_002, lines 611-622):
keccak256 of {reversed transaction hash as bytes32, output index as uint32,
value as uint64}. -/
def buildUtxoHash (keccak : Bytes → Bytes) (utxo : UnspentTransactionOutput) :
    Option Bytes :=
  solidityKeccak256 keccak
    [(SolType.bytes32, SolValue.bV utxo.transactionHash.reverse),
     (SolType.uint32, SolValue.nV utxo.outputIndex),
     (SolType.uint64, SolValue.nV utxo.value)]

/-- The UTXO-hash rule as the specification words it. -/
def utxoHashRule (keccak : Bytes → Bytes) (utxo : UnspentTransactionOutput) :
    Bytes :=
  keccak (utxo.transactionHash.reverse ++ beBytes 4 utxo.outputIndex
    ++ beBytes 8 utxo.value)

/-- An output of the transaction under construction. -/
structure TxOutput where
  script : Bytes
  value : Int
deriving DecidableEq, Repr

/-- The structure of the transaction the builder assembles: its input
outpoints, its outputs in order, and the declared hard fee. Signing and raw
serialization (bcoin `sign` and `toRaw`) do not alter this structure and are
elided. -/
structure BuiltTransaction where
  inputs : List (Bytes × Nat)
  outputs : List TxOutput
  fee : Int
deriving DecidableEq, Repr

/-- The failures the redemption path can raise.
`invalidRequestList` is the explicit throw in `createRedemptionTransaction`;
`numberOverflow` models `BigNumber.toNumber()` throwing outside the
safe-integer range; `valueNotUint64` models the bcoin assertion that an
output value (or hard fee) is a non-negative safe integer;
`insufficientFunds` models bcoin `fund` failing to cover outputs plus fee;
`notFound` is the explicit throw in `fetchRedemptionRequests`. -/
inductive TbtcError
  | invalidRequestList (msg : String)
  | numberOverflow
  | valueNotUint64
  | insufficientFunds
  | notFound (msg : String)
deriving DecidableEq, Repr

/-- The message of the explicit non-empty-list check in
`createRedemptionTransaction`. -/
def atLeastOneRequestMsg : String := "There must be at least one request to redeem"

/-- The per-request loop of `createRedemptionTransaction`
(src/typescript/src/redemption.ts, lines 216-241): for each request compute
`outputValue = requestedAmount - txMaxFee - treasuryFee`, convert it and
`txMaxFee` to JS numbers (failing outside the safe-integer range), add an
output locked to the raw redeemer output script (bcoin rejects a negative
value), and accumulate the total output value and total fee. Returns the
output list in request order together with the two accumulators. -/
def processRequests : List RedemptionRequest → Except TbtcError (List TxOutput × Int × Int)
  | [] => Except.ok ([], 0, 0)
  | r :: rest =>
    let outputValue := r.requestedAmount - r.txMaxFee - r.treasuryFee
    if outputValue.natAbs < 2 ^ 53 then
      if r.txMaxFee.natAbs < 2 ^ 53 then
        if 0 ≤ outputValue then
          match processRequests rest with
          | Except.error e => Except.error e
          | Except.ok (outs, total, fee) =>
            Except.ok (⟨r.redeemerOutputScript, outputValue⟩ :: outs,
              outputValue + total, r.txMaxFee + fee)
        else Except.error TbtcError.valueNotUint64
      else Except.error TbtcError.numberOverflow
    else Except.error TbtcError.numberOverflow

/-- `createRedemptionTransaction` (src/typescript/src/redemption.ts, lines
188-267): reject an empty request list, build one output per request, add an
explicit change output locked to the wallet address script when
`mainUtxo.value - totalOutputsValue - txTotalFee` is positive, then fund the
transaction from the single main-UTXO coin with `hardFee = txTotalFee`
(bcoin `fund` fails when the input value does not cover outputs plus fee).
The wallet address script (P2WPKH or P2PKH per the `witness` flag) is
abstracted as the `changeScript` parameter. -/
def createRedemptionTransaction (changeScript : Bytes)
    (mainUtxo : UnspentTransactionOutput)
    (redemptionRequests : List RedemptionRequest) :
    Except TbtcError BuiltTransaction :=
  if redemptionRequests.length < 1 then
    Except.error (TbtcError.invalidRequestList atLeastOneRequestMsg)
  else
    match processRequests redemptionRequests with
    | Except.error e => Except.error e
    | Except.ok (outs, totalOutputsValue, txTotalFee) =>
      let changeOutputValue : Int :=
        (mainUtxo.value : Int) - totalOutputsValue - txTotalFee
      if 0 < changeOutputValue ∧ ¬ changeOutputValue.natAbs < 2 ^ 53 then
        Except.error TbtcError.valueNotUint64
      else
        let withChange :=
          if 0 < changeOutputValue then
            outs ++ [⟨changeScript, changeOutputValue⟩]
          else outs
        if txTotalFee < 0 then Except.error TbtcError.valueNotUint64
        else if (mainUtxo.value : Int) <
            (withChange.map TxOutput.value).sum + txTotalFee then
          Except.error TbtcError.insufficientFunds
        else
          Except.ok ⟨[(mainUtxo.transactionHash, mainUtxo.outputIndex)],
            withChange, txTotalFee⟩

/-- The value of the redemption output a request produces, as the loop
computes it. -/
def requestOutputValue (r : RedemptionRequest) : Int :=
  r.requestedAmount - r.txMaxFee - r.treasuryFee

/-- Sum of the per-request output values. -/
def totalRequestsValue (l : List RedemptionRequest) : Int :=
  (l.map requestOutputValue).sum

/-- Sum of the per-request transaction fees. -/
def totalRequestsFee (l : List RedemptionRequest) : Int :=
  (l.map RedemptionRequest.txMaxFee).sum

/-- Whether a builder result is the `InvalidRequestList` failure. -/
def isInvalidRequestListError : Except TbtcError BuiltTransaction → Bool
  | Except.error (TbtcError.invalidRequestList _) => true
  | _ => false

instance instDecidableEqExcept {ε α : Type} [DecidableEq ε] [DecidableEq α] :
    DecidableEq (Except ε α) := fun x y =>
  match x, y with
  | Except.ok a, Except.ok b =>
    match decEq a b with
    | isTrue h => isTrue (congrArg Except.ok h)
    | isFalse h => isFalse (fun hc => h (Except.ok.inj hc))
  | Except.error a, Except.error b =>
    match decEq a b with
    | isTrue h => isTrue (congrArg Except.error h)
    | isFalse h => isFalse (fun hc => h (Except.error.inj hc))
  | Except.ok _, Except.error _ => isFalse (fun hc => Except.noConfusion hc)
  | Except.error _, Except.ok _ => isFalse (fun hc => Except.noConfusion hc)

/-- The message of the explicit check in `fetchRedemptionRequests`. -/
def noPendingRedemptionMsg : String :=
  "Provided redeemer output script and wallet public key do not identify a pending redemption"

/-- `fetchRedemptionRequests` (src/typescript/src/redemption.ts, lines
130-167): for each redeemer output script in order, look up the pending
redemption under the wallet public key hash; a record with a zero
`requestedAt` timestamp means the request does not exist and is surfaced as
the not-found error; otherwise the record is kept with its
`redeemerOutputScript` field overwritten by the input script. The wallet
public key hash (hash160 of the public key derived from the private key by
the trusted key-ring library) is passed directly as a parameter. -/
def fetchRedemptionRequests (pendingRedemptions : Bytes → Bytes → RedemptionRequest)
    (walletPubKeyHash : Bytes) :
    List Bytes → Except TbtcError (List RedemptionRequest)
  | [] => Except.ok []
  | s :: rest =>
    let p := pendingRedemptions walletPubKeyHash s
    if p.requestedAt = 0 then
      Except.error (TbtcError.notFound noPendingRedemptionMsg)
    else
      match fetchRedemptionRequests pendingRedemptions walletPubKeyHash rest with
      | Except.error e => Except.error e
      | Except.ok reqs => Except.ok ({ p with redeemerOutputScript := s } :: reqs)

/-- `EthereumBridge.activeWalletPublicKey` (src/unnamed/part_002, lines
487-506): read the active wallet public key hash; when it is the 20-byte
zero address return `undefined`, otherwise resolve the wallet record and
return its compressed public key. The on-chain hash and the wallet-registry
resolution are modelled as parameters. -/
def activeWalletPublicKey (activeWalletPubKeyHash : Bytes)
    (walletPublicKeyOf : Bytes → Bytes) : Option Bytes :=
  if activeWalletPubKeyHash = List.replicate 20 0 then none
  else some (walletPublicKeyOf activeWalletPubKeyHash)

/-- The result of one underlying RPC attempt: a value, or a failure whose
message is the string the error carries. -/
inductive RpcOutcome (α : Type)
  | success (value : α)
  | failure (message : String)

/-- Whether `needle` occurs as a contiguous substring of `hay`. -/
def containsSub (hay needle : String) : Bool :=
  let h := hay.toList
  let n := needle.toList
  (List.range (h.length + 1)).any (fun i => (h.drop i).take n.length == n)

/-- Modelled from the spec: the bounded-retry loop of
`EthersTransactionUtils.sendWithRetry` (imported by src/unnamed/part_002 from
an adapter module that is not under src/). Spec sections 4.5 and 7: invoke
the operation; on a failure whose message contains one of the
caller-enumerated expected substrings, short-circuit and treat the call as
successfully completed; on another failure retry up to the attempt budget and,
on exhausting it, surface the final underlying message verbatim. -/
def sendWithRetryGo {α : Type} (call : Nat → RpcOutcome α)
    (expectedErrors : List String) : Nat → Nat → Except String (Option α)
  | _, 0 => Except.error ""
  | attempt, remaining + 1 =>
    match call attempt with
    | RpcOutcome.success a => Except.ok (some a)
    | RpcOutcome.failure msg =>
      if expectedErrors.any (fun e => containsSub msg e) then Except.ok none
      else if remaining = 0 then Except.error msg
      else sendWithRetryGo call expectedErrors (attempt + 1) remaining

/-- Modelled from the spec: entry point of the retry wrapper, with the whole
attempt budget available. A successful call yields `Except.ok (some value)`;
an expected-error short-circuit yields `Except.ok none` (completed, no value
to hand back); exhaustion yields `Except.error` with the last message. -/
def sendWithRetry {α : Type} (call : Nat → RpcOutcome α) (totalAttempts : Nat)
    (expectedErrors : List String) : Except String (Option α) :=
  sendWithRetryGo call expectedErrors 0 totalAttempts

/-- The expected-error substring `EthereumBridge.revealDeposit` enumerates
(src/unnamed/part_002, line 259). -/
def depositAlreadyRevealed : String := "Deposit already revealed"

/-- An unrelated failure message used by concrete instances. -/
def unrelatedErrorMsg : String := "transaction underpriced"

/-- `EthereumBridge.revealDeposit` (src/unnamed/part_002, lines 231-263):
submit the reveal through the retry wrapper with the single expected-error
substring, returning the transaction hash of a successful send. The reveal
parameters only shape the underlying RPC call, abstracted as `rpc`. -/
def revealDeposit (rpc : Nat → RpcOutcome Bytes) (totalRetryAttempts : Nat) :
    Except String (Option Bytes) :=
  sendWithRetry rpc totalRetryAttempts [depositAlreadyRevealed]

end Tbtc

namespace Tbtc

/-- C2: the redemption key is computed by the fixed two-stage rule: prefix the
raw output script with one byte equal to its length, hash the prefixed buffer
with the ledger hash, then hash {that digest, the 20-byte wallet public key
hash} with the same function. Holds for every hash function producing 32-byte
digests, every 20-byte wallet hash, and every script of at most 255 bytes. -/
theorem c2_buildRedemptionKey_eq_rule (keccak : Bytes → Bytes)
    (walletPublicKeyHash redeemerOutputScript : Bytes)
    (h32 : ∀ b, (keccak b).length = 32)
    (h20 : walletPublicKeyHash.length = 20)
    (hlen : redeemerOutputScript.length ≤ 255) :
    buildRedemptionKey keccak walletPublicKeyHash redeemerOutputScript =
      some (redemptionKeyRule keccak walletPublicKeyHash redeemerOutputScript) := by
  have hmod : redeemerOutputScript.length % 256 = redeemerOutputScript.length :=
    Nat.mod_eq_of_lt (Nat.lt_of_le_of_lt hlen (by norm_num))
  simp [buildRedemptionKey, solidityKeccak256, solidityPack, solidityPackOne,
    hmod, h32, h20, redemptionKeyRule]

/-- Witness for C2 at a concrete hash function, wallet hash and script. -/
theorem c2_witness :
    buildRedemptionKey (fun b => List.replicate 32 (b.length % 256))
        (List.replicate 20 1) [0x51] =
      some (redemptionKeyRule (fun b => List.replicate 32 (b.length % 256))
        (List.replicate 20 1) [0x51]) :=
  c2_buildRedemptionKey_eq_rule (fun b => List.replicate 32 (b.length % 256))
    (List.replicate 20 1) [0x51] (fun _ => by simp) (by simp) (by simp)

/-- C7: the deposit key equals the ledger hash of the byte-order-reversed
transaction hash followed by the output index as a 4-byte big-endian
integer. -/
theorem c7_buildDepositKey_eq_rule (keccak : Bytes → Bytes)
    (depositTxHash : Bytes) (depositOutputIndex : Nat)
    (hlen : depositTxHash.length = 32)
    (hidx : depositOutputIndex < 2 ^ 32) :
    buildDepositKey keccak depositTxHash depositOutputIndex =
      some (depositKeyRule keccak depositTxHash depositOutputIndex) := by
  have hidx' : depositOutputIndex < 4294967296 := by norm_num at hidx; exact hidx
  simp [buildDepositKey, solidityKeccak256, solidityPack, solidityPackOne,
    hlen, hidx', depositKeyRule]

/-- Witness for C7 at a concrete hash function, transaction hash and index. -/
theorem c7_witness :
    buildDepositKey (fun b => List.replicate 32 (b.length % 256))
        (List.replicate 32 7) 1 =
      some (depositKeyRule (fun b => List.replicate 32 (b.length % 256))
        (List.replicate 32 7) 1) :=
  c7_buildDepositKey_eq_rule (fun b => List.replicate 32 (b.length % 256))
    (List.replicate 32 7) 1 (by simp) (by norm_num)

/-- C8: the UTXO hash equals the ledger hash of the reversed transaction hash,
the 4-byte output index and the 8-byte value, concatenated. -/
theorem c8_buildUtxoHash_eq_rule (keccak : Bytes → Bytes)
    (utxo : UnspentTransactionOutput)
    (hlen : utxo.transactionHash.length = 32)
    (hidx : utxo.outputIndex < 2 ^ 32)
    (hval : utxo.value < 2 ^ 64) :
    buildUtxoHash keccak utxo = some (utxoHashRule keccak utxo) := by
  have hidx' : utxo.outputIndex < 4294967296 := by norm_num at hidx; exact hidx
  have hval' : utxo.value < 18446744073709551616 := by norm_num at hval; exact hval
  simp [buildUtxoHash, solidityKeccak256, solidityPack, solidityPackOne,
    hlen, hidx', hval', utxoHashRule]

/-- Helper: under the economic preconditions the per-request loop succeeds and
returns one output per request in order, with the two accumulated sums. -/
theorem processRequests_eq_ok (l : List RedemptionRequest)
    (h : ∀ r ∈ l, 0 ≤ requestOutputValue r ∧ requestOutputValue r < 2 ^ 53 ∧
      0 ≤ r.txMaxFee ∧ r.txMaxFee < 2 ^ 53) :
    processRequests l = Except.ok
      (l.map (fun r => ⟨r.redeemerOutputScript, requestOutputValue r⟩),
       totalRequestsValue l, totalRequestsFee l) := by
  induction l with
  | nil => simp [processRequests, totalRequestsValue, totalRequestsFee]
  | cons r rest ih =>
    obtain ⟨h1, h2, h3, h4⟩ := h r (by simp)
    have hrest := fun x hx => h x (List.mem_cons_of_mem r hx)
    have hv : (r.requestedAmount - r.txMaxFee - r.treasuryFee).natAbs
        < 9007199254740992 := by
      unfold requestOutputValue at h1 h2; omega
    have hf : r.txMaxFee.natAbs < 9007199254740992 := by omega
    have h0 : 0 ≤ r.requestedAmount - r.txMaxFee - r.treasuryFee := h1
    simp [processRequests, hv, hf, h0, ih hrest, totalRequestsValue,
      totalRequestsFee, requestOutputValue]

/-- Helper: the per-request loop only fails with the number-overflow or
uint64-value errors, never with `InvalidRequestList`. -/
theorem processRequests_error_cases (l : List RedemptionRequest) (e : TbtcError)
    (h : processRequests l = Except.error e) :
    e = TbtcError.numberOverflow ∨ e = TbtcError.valueNotUint64 := by
  induction l generalizing e with
  | nil => simp [processRequests] at h
  | cons r rest ih =>
    simp only [processRequests] at h
    split at h
    · split at h
      · split at h
        · split at h
          · rename_i e2 heq
            injection h with h'
            exact ih e (h' ▸ heq)
          · exact absurd h (by simp)
        · injection h with h'; right; exact h'.symm
      · injection h with h'; left; exact h'.symm
    · injection h with h'; left; exact h'.symm

/-- Witness for C8 at a concrete hash function and UTXO. -/
theorem c8_witness :
    buildUtxoHash (fun b => List.replicate 32 (b.length % 256))
        ⟨List.replicate 32 9, 2, 100000⟩ =
      some (utxoHashRule (fun b => List.replicate 32 (b.length % 256))
        ⟨List.replicate 32 9, 2, 100000⟩) :=
  c8_buildUtxoHash_eq_rule (fun b => List.replicate 32 (b.length % 256))
    ⟨List.replicate 32 9, 2, 100000⟩ (by simp) (by norm_num) (by norm_num)

/-- C1 (amended): for a non-empty request list whose per-request values are
economically valid and in range, and a funding UTXO covering the outputs and
fees, the builder produces exactly one input (the funding UTXO outpoint), one
output per request valued `requestedAmount - txMaxFee - treasuryFee` locked
to that request's script, an explicit change output of value
`fundingValue - totalOutputsValue - totalFee` exactly when that value is
positive, and a declared fee equal to the sum of the per-request
`txMaxFee`. -/
theorem c1_createRedemptionTransaction_structure (changeScript : Bytes)
    (mainUtxo : UnspentTransactionOutput) (reqs : List RedemptionRequest)
    (hne : reqs ≠ [])
    (hreq : ∀ r ∈ reqs, 0 ≤ requestOutputValue r ∧ requestOutputValue r < 2 ^ 53 ∧
      0 ≤ r.txMaxFee ∧ r.txMaxFee < 2 ^ 53)
    (hcover : totalRequestsValue reqs + totalRequestsFee reqs ≤ (mainUtxo.value : Int))
    (hbound : (mainUtxo.value : Int) - totalRequestsValue reqs - totalRequestsFee reqs
      < 2 ^ 53) :
    createRedemptionTransaction changeScript mainUtxo reqs =
      Except.ok ⟨[(mainUtxo.transactionHash, mainUtxo.outputIndex)],
        reqs.map (fun r => ⟨r.redeemerOutputScript, requestOutputValue r⟩) ++
          (if 0 < (mainUtxo.value : Int) - totalRequestsValue reqs
              - totalRequestsFee reqs then
            [⟨changeScript, (mainUtxo.value : Int) - totalRequestsValue reqs
              - totalRequestsFee reqs⟩]
          else []),
        totalRequestsFee reqs⟩ := by
  have hlen : ¬ reqs.length < 1 := by
    cases reqs with
    | nil => exact absurd rfl hne
    | cons a l => simp
  have hchange0 : 0 ≤ (mainUtxo.value : Int) - totalRequestsValue reqs
      - totalRequestsFee reqs := by omega
  have hchangeAbs : ((mainUtxo.value : Int) - totalRequestsValue reqs
      - totalRequestsFee reqs).natAbs < 2 ^ 53 := by omega
  have hfee0 : 0 ≤ totalRequestsFee reqs := by
    refine List.sum_nonneg ?_
    intro x hx
    simp only [List.mem_map] at hx
    obtain ⟨r, hr, rfl⟩ := hx
    exact (hreq r hr).2.2.1
  have hmapsum : ((reqs.map fun r =>
      (⟨r.redeemerOutputScript, requestOutputValue r⟩ : TxOutput)).map
        TxOutput.value).sum = totalRequestsValue reqs := by
    simp [totalRequestsValue, List.map_map]
    rfl
  rw [createRedemptionTransaction, if_neg hlen, processRequests_eq_ok reqs hreq]
  simp only []
  rw [if_neg (by push_neg; intro _; exact hchangeAbs)]
  rw [if_neg (by omega)]
  by_cases hpos : 0 < (mainUtxo.value : Int) - totalRequestsValue reqs
      - totalRequestsFee reqs
  · rw [if_pos hpos, if_pos hpos]
    have hsum2 : (List.map TxOutput.value
        ((reqs.map fun r => (⟨r.redeemerOutputScript, requestOutputValue r⟩ : TxOutput))
          ++ [⟨changeScript, (mainUtxo.value : Int) - totalRequestsValue reqs
                - totalRequestsFee reqs⟩])).sum
        = totalRequestsValue reqs + ((mainUtxo.value : Int) - totalRequestsValue reqs
            - totalRequestsFee reqs) := by
      rw [List.map_append, List.sum_append, hmapsum]
      simp
    rw [if_neg (by rw [hsum2]; omega)]
  · rw [if_neg hpos, if_neg hpos]
    rw [if_neg (by rw [hmapsum]; omega), List.append_nil]

/-- Witness for C1 at the funding value and request of the specification
example: the redemption output is 49500, the change output 50100, the fee
400. -/
theorem c1_witness :
    createRedemptionTransaction [170] ⟨List.replicate 32 3, 0, 100000⟩
        [⟨0, [81], 50000, 100, 400, 1⟩] =
      Except.ok ⟨[(List.replicate 32 3, 0)],
        [⟨[81], 49500⟩, ⟨[170], 50100⟩], 400⟩ := by
  have h := c1_createRedemptionTransaction_structure [170]
    ⟨List.replicate 32 3, 0, 100000⟩ [⟨0, [81], 50000, 100, 400, 1⟩]
    (by decide) (by decide) (by decide) (by decide)
  rw [h]
  decide

/-- Counterexample for C1 as frozen: at funding value 100000 with the single
request {requestedAmount 50000, treasuryFee 100, txMaxFee 400} the builder
produces a change output of 50100 = 100000 - 49500 - 400, and no output of
the claimed value 49600 exists. -/
theorem c1_counterexample :
    createRedemptionTransaction [170] ⟨List.replicate 32 3, 0, 100000⟩
        [⟨0, [81], 50000, 100, 400, 1⟩] =
      Except.ok ⟨[(List.replicate 32 3, 0)],
        [⟨[81], 49500⟩, ⟨[170], 50100⟩], 400⟩
    ∧ ∀ o ∈ [TxOutput.mk [81] 49500, TxOutput.mk [170] 50100],
        o.value ≠ 49600 := by
  decide

/-- C3 (amended): the builder fails with `InvalidRequestList` on an empty
request list, but it does not re-validate the per-request economic condition:
for any single-request list — in particular one violating
`requestedAmount > txMaxFee + treasuryFee` — the result is never the
`InvalidRequestList` failure. -/
theorem c3_invalidRequestList_only_for_empty (changeScript : Bytes)
    (mainUtxo : UnspentTransactionOutput) (r : RedemptionRequest) :
    createRedemptionTransaction changeScript mainUtxo [] =
      Except.error (TbtcError.invalidRequestList atLeastOneRequestMsg)
    ∧ isInvalidRequestListError
        (createRedemptionTransaction changeScript mainUtxo [r]) = false := by
  constructor
  · rfl
  · rw [createRedemptionTransaction]
    rw [if_neg (by simp)]
    cases hpr : processRequests [r] with
    | error e =>
      simp only [hpr]
      rcases processRequests_error_cases [r] e hpr with rfl | rfl <;>
        simp [isInvalidRequestListError]
    | ok v =>
      obtain ⟨outs, total, fee⟩ := v
      simp only [hpr]
      split
      · rfl
      · split
        · rfl
        · split
          · split
            · rfl
            · rfl
          · split
            · rfl
            · rfl

/-- C4 (amended): the key derivation performs no length check at all: for
every output script — including those longer than 255 bytes — it succeeds,
and the single length-prefix byte is the script length reduced modulo 256,
silently producing a key from the truncated length. -/
theorem c4_buildRedemptionKey_truncates (keccak : Bytes → Bytes)
    (walletPublicKeyHash redeemerOutputScript : Bytes)
    (h32 : ∀ b, (keccak b).length = 32)
    (h20 : walletPublicKeyHash.length = 20) :
    buildRedemptionKey keccak walletPublicKeyHash redeemerOutputScript =
      some (keccak (keccak ((redeemerOutputScript.length % 256) :: redeemerOutputScript)
        ++ walletPublicKeyHash)) := by
  simp [buildRedemptionKey, solidityKeccak256, solidityPack, solidityPackOne, h32, h20]

/-- Witness for C4 at a 256-byte script: the derivation succeeds and the
prefix byte is 256 mod 256. -/
theorem c4_witness :
    buildRedemptionKey (fun b => List.replicate 32 (b.length % 256))
        (List.replicate 20 1) (List.replicate 256 2) =
      some ((fun b : Bytes => List.replicate 32 (b.length % 256))
        ((fun b : Bytes => List.replicate 32 (b.length % 256))
            (((List.replicate 256 2 : Bytes).length % 256) :: List.replicate 256 2)
          ++ List.replicate 20 1)) :=
  c4_buildRedemptionKey_truncates (fun b => List.replicate 32 (b.length % 256))
    (List.replicate 20 1) (List.replicate 256 2) (fun _ => by simp) (by simp)

set_option maxRecDepth 4000 in
/-- Counterexample for C4 as frozen: with a hash function exposing the first
byte of its preimage, a 256-byte script makes the derivation return a key
(no failure), and that key reveals that the length-prefix byte was 0, the
truncation of 256 — not a precondition failure. -/
theorem c4_counterexample :
    (buildRedemptionKey (fun b => List.replicate 32 (List.headD b 99))
        (List.replicate 20 1) (List.replicate 256 2)).isSome = true
    ∧ buildRedemptionKey (fun b => List.replicate 32 (List.headD b 99))
        (List.replicate 20 1) (List.replicate 256 2) =
      some (List.replicate 32 0) := by
  decide

/-- Helper: a failure whose message matches an expected substring makes the
retry loop report completion at once, on any attempt with budget left. -/
theorem sendWithRetryGo_expected {α : Type} (call : Nat → RpcOutcome α)
    (expectedErrors : List String) (m : String) (attempt remaining : Nat)
    (hrem : 1 ≤ remaining)
    (hcall : call attempt = RpcOutcome.failure m)
    (hmatch : expectedErrors.any (fun e => containsSub m e) = true) :
    sendWithRetryGo call expectedErrors attempt remaining = Except.ok none := by
  cases remaining with
  | zero => omega
  | succ n => simp [sendWithRetryGo, hcall, hmatch]

/-- Helper: when every attempt fails with the same unmatched message, the
retry loop exhausts its budget and surfaces that message. -/
theorem sendWithRetryGo_unmatched {α : Type} (call : Nat → RpcOutcome α)
    (expectedErrors : List String) (m : String)
    (hcall : ∀ i, call i = RpcOutcome.failure m)
    (hmatch : expectedErrors.any (fun e => containsSub m e) = false) :
    ∀ remaining attempt, 1 ≤ remaining →
      sendWithRetryGo call expectedErrors attempt remaining = Except.error m := by
  intro remaining
  induction remaining with
  | zero => intro attempt h; omega
  | succ n ih =>
    intro attempt _
    rw [sendWithRetryGo, hcall attempt]
    simp only [hmatch, if_false, Bool.false_eq_true]
    cases hn : n with
    | zero => simp
    | succ k =>
      have := ih (attempt + 1) (by omega)
      simp [hn] at this ⊢
      exact this

/-- C5: a `revealDeposit` whose underlying RPC always fails with a message
containing the caller-enumerated expected substring completes as success
with no error surfaced, while one failing with a message free of that
substring exhausts its retry budget and surfaces the final underlying
message verbatim. -/
theorem c5_revealDeposit_retry_semantics (rpc : Nat → RpcOutcome Bytes)
    (n : Nat) (m : String) (hn : 1 ≤ n)
    (hfail : ∀ i, rpc i = RpcOutcome.failure m) :
    (containsSub m depositAlreadyRevealed = true →
      revealDeposit rpc n = Except.ok none)
    ∧ (containsSub m depositAlreadyRevealed = false →
      revealDeposit rpc n = Except.error m) := by
  constructor
  · intro hmatch
    exact sendWithRetryGo_expected rpc [depositAlreadyRevealed] m 0 n hn
      (hfail 0) (by simp [hmatch])
  · intro hmatch
    exact sendWithRetryGo_unmatched rpc [depositAlreadyRevealed] m hfail
      (by simp [hmatch]) n 0 hn

/-- Witness for C5: an RPC failing with exactly the expected message
completes as success after one attempt, and one failing with an unrelated
message surfaces it after the budget of two attempts. -/
theorem c5_witness :
    revealDeposit (fun _ => RpcOutcome.failure depositAlreadyRevealed) 3 =
      Except.ok none
    ∧ revealDeposit (fun _ => RpcOutcome.failure unrelatedErrorMsg) 2 =
      Except.error unrelatedErrorMsg :=
  ⟨(c5_revealDeposit_retry_semantics
      (fun _ => RpcOutcome.failure depositAlreadyRevealed) 3 depositAlreadyRevealed
      (by norm_num) (fun _ => rfl)).1 (by decide),
   (c5_revealDeposit_retry_semantics
      (fun _ => RpcOutcome.failure unrelatedErrorMsg) 2 unrelatedErrorMsg
      (by norm_num) (fun _ => rfl)).2 (by decide)⟩

/-- C6: a pending-redemption record with a zero `requestedAt` timestamp is
treated as absent and surfaced as the not-found error, while a record with a
non-zero timestamp is returned to the caller (with the script field set to
the queried script). -/
theorem c6_zero_requestedAt_is_notFound
    (pendingRedemptions : Bytes → Bytes → RedemptionRequest)
    (walletPubKeyHash script : Bytes) :
    ((pendingRedemptions walletPubKeyHash script).requestedAt = 0 →
      fetchRedemptionRequests pendingRedemptions walletPubKeyHash [script] =
        Except.error (TbtcError.notFound noPendingRedemptionMsg))
    ∧ ((pendingRedemptions walletPubKeyHash script).requestedAt ≠ 0 →
      fetchRedemptionRequests pendingRedemptions walletPubKeyHash [script] =
        Except.ok [{ pendingRedemptions walletPubKeyHash script with
          redeemerOutputScript := script }]) := by
  constructor
  · intro h
    simp [fetchRedemptionRequests, h]
  · intro h
    simp [fetchRedemptionRequests, h]

/-- Witness for C6: a lookup returning a zero timestamp surfaces not-found,
one returning timestamp 5 surfaces the record with the queried script. -/
theorem c6_witness :
    fetchRedemptionRequests (fun _ _ => ⟨0, [], 0, 0, 0, 0⟩) [7] [[81]] =
      Except.error (TbtcError.notFound noPendingRedemptionMsg)
    ∧ fetchRedemptionRequests (fun _ _ => ⟨1, [9], 10, 1, 1, 5⟩) [7] [[81]] =
      Except.ok [⟨1, [81], 10, 1, 1, 5⟩] :=
  ⟨(c6_zero_requestedAt_is_notFound (fun _ _ => ⟨0, [], 0, 0, 0, 0⟩) [7] [81]).1 rfl,
   (c6_zero_requestedAt_is_notFound (fun _ _ => ⟨1, [9], 10, 1, 1, 5⟩) [7] [81]).2
     (by decide)⟩

/-- C9: when every queried script has a pending redemption (non-zero
`requestedAt`), the fetch returns one request per script, in input order,
each being the remote record with its `redeemerOutputScript` overridden by
the corresponding input script. -/
theorem c9_fetch_preserves_order
    (pendingRedemptions : Bytes → Bytes → RedemptionRequest)
    (walletPubKeyHash : Bytes) (scripts : List Bytes)
    (h : ∀ s ∈ scripts, (pendingRedemptions walletPubKeyHash s).requestedAt ≠ 0) :
    fetchRedemptionRequests pendingRedemptions walletPubKeyHash scripts =
      Except.ok (scripts.map (fun s =>
        { pendingRedemptions walletPubKeyHash s with redeemerOutputScript := s }))
    ∧ (scripts.map (fun s =>
        { pendingRedemptions walletPubKeyHash s with
          redeemerOutputScript := s })).length = scripts.length
    ∧ ∀ i, ((scripts.map (fun s =>
        { pendingRedemptions walletPubKeyHash s with
          redeemerOutputScript := s })).get? i).map
          RedemptionRequest.redeemerOutputScript = scripts.get? i := by
  refine ⟨?_, by simp, ?_⟩
  · induction scripts with
    | nil => simp [fetchRedemptionRequests]
    | cons s rest ih =>
      have hs := h s (by simp)
      have hrest := fun x hx => h x (List.mem_cons_of_mem s hx)
      simp [fetchRedemptionRequests, hs, ih hrest]
  · intro i
    rw [List.get?_map]
    cases scripts.get? i with
    | none => rfl
    | some s => rfl

/-- Witness for C9 at two concrete scripts. -/
theorem c9_witness :
    fetchRedemptionRequests (fun _ s => ⟨2, s ++ [0], 20, 1, 2, 9⟩) [7]
        [[81], [82]] =
      Except.ok [⟨2, [81], 20, 1, 2, 9⟩, ⟨2, [82], 20, 1, 2, 9⟩] := by
  have h := c9_fetch_preserves_order (fun _ s => ⟨2, s ++ [0], 20, 1, 2, 9⟩) [7]
    [[81], [82]] (by decide)
  rw [h.1]
  decide

/-- C10: the active-wallet lookup returns `undefined` exactly when the remote
active wallet public key hash is the 20-byte all-zero address; for any other
hash it returns the resolved wallet public key. -/
theorem c10_activeWalletPublicKey_zero_hash
    (activeWalletPubKeyHash : Bytes) (walletPublicKeyOf : Bytes → Bytes) :
    (activeWalletPublicKey activeWalletPubKeyHash walletPublicKeyOf = none ↔
      activeWalletPubKeyHash = List.replicate 20 0)
    ∧ (activeWalletPubKeyHash ≠ List.replicate 20 0 →
      activeWalletPublicKey activeWalletPubKeyHash walletPublicKeyOf =
        some (walletPublicKeyOf activeWalletPubKeyHash)) := by
  constructor
  · constructor
    · intro h
      by_contra hne
      rw [activeWalletPublicKey, if_neg hne] at h
      exact Option.noConfusion h
    · intro h
      rw [activeWalletPublicKey, if_pos h]
  · intro h
    rw [activeWalletPublicKey, if_neg h]

/-- Witness for C10: a non-zero hash resolves to the wallet key, the zero
hash to none. -/
theorem c10_witness :
    activeWalletPublicKey (List.replicate 20 1) (fun h => 3 :: h) =
      some (3 :: List.replicate 20 1)
    ∧ activeWalletPublicKey (List.replicate 20 0) (fun h => 3 :: h) = none :=
  ⟨(c10_activeWalletPublicKey_zero_hash (List.replicate 20 1) (fun h => 3 :: h)).2
      (by decide),
   (c10_activeWalletPublicKey_zero_hash (List.replicate 20 0) (fun h => 3 :: h)).1.mpr
      rfl⟩

/-- Counterexample for C3 as frozen: a request with
`requestedAmount = txMaxFee + treasuryFee` (500 = 400 + 100) is built
successfully into a zero-valued output rather than rejected with
`InvalidRequestList`, and one with `requestedAmount < txMaxFee + treasuryFee`
fails with the Bitcoin library's uint64-value assertion, not with
`InvalidRequestList`. -/
theorem c3_counterexample :
    createRedemptionTransaction [170] ⟨List.replicate 32 3, 0, 100000⟩
        [⟨0, [81], 500, 100, 400, 1⟩] =
      Except.ok ⟨[(List.replicate 32 3, 0)], [⟨[81], 0⟩, ⟨[170], 99600⟩], 400⟩
    ∧ createRedemptionTransaction [170] ⟨List.replicate 32 3, 0, 100000⟩
        [⟨0, [81], 400, 100, 400, 1⟩] =
      Except.error TbtcError.valueNotUint64 := by
  decide

end Tbtc
